import Mathlib

/-!
Verification of the collaborative document editing engine
(`src/api/collaborative_editor.py`): the `Operation` model,
`DocumentState.apply_operation`, `DocumentState.transform_operation`,
`CollaborationManager.create_session` and
`CollaborationManager.get_pending_operations`.

Document text is modelled as `List Char` (a Python `str` indexed by code
points), positions and lengths as `Int` (Python `int` is signed and
unbounded), and optional fields as `Option`.  The `timestamp`, `op_id` and
`attributes` fields of `Operation` are omitted: no modelled function reads
them (`apply_operation` and `transform_operation` consult only the kind,
position, content, length and agent id).  The `try`/`except` wrapper in
`apply_operation` is not modelled because no expression in the guarded
block can raise: Python slicing, `len` and `append` never throw here.
-/

/-- The `OperationType` enum: INSERT, DELETE, FORMAT, CURSOR. -/
inductive OperationType where
  | insert
  | delete
  | format
  | cursor
deriving DecidableEq, Repr

/-- The `Operation` dataclass, restricted to the fields the modelled
functions read.  `content` is `None` or a string; `length` is `None` or an
(arbitrary, possibly negative) integer, as in Python.  `agent_id` is a
string, modelled as `List Char` so that the lexicographic-by-code-point
`<` of Python `str` is the lexicographic `<` on `List Char`. -/
structure Operation where
  op_type : OperationType
  position : Int
  content : Option (List Char) := none
  length : Option Int := none
  agent_id : List Char := []
deriving DecidableEq, Repr

/-- Python truthiness of the `content` field: `op.content` is truthy
iff it is a string and non-empty. -/
def contentTruthy : Option (List Char) → Bool
  | none => false
  | some s => !s.isEmpty

/-- Python truthiness of the `length` field: `op.length` is truthy
iff it is an integer and nonzero. -/
def lengthTruthy : Option Int → Bool
  | none => false
  | some l => l != 0

/-- Python `len(c or "")`: the length of an optional string, 0 for `None`
(and 0 for the empty string, which `or` also replaces by `""`). -/
def lenOrEmpty (c : Option (List Char)) : Int :=
  ((c.getD []).length : Int)

/-- Python slice `s[i:]` for a possibly negative integer `i`: a negative
start counts from the end, clamped at 0. -/
def pySuffix (s : List Char) (i : Int) : List Char :=
  if 0 ≤ i then s.drop i.toNat
  else s.drop ((s.length : Int) + i).toNat

/-- `DocumentState`, restricted to the fields the claims concern
(`pending_operations` and the lock are not modelled; the lock only
serialises access and every modelled call runs under it). -/
structure DocumentState where
  document_id : String
  content : List Char
  version : Nat
  operations : List Operation
deriving DecidableEq, Repr

/-- `DocumentState.__init__`: empty content, version 0, empty log. -/
def DocumentState.init (document_id : String) : DocumentState :=
  { document_id := document_id, content := [], version := 0, operations := [] }

/-- The content-level effect of `DocumentState.apply_operation`: given the
current text and an operation, return whether the operation succeeds and
the resulting text.  This mirrors the `if`/`elif` chain of the source:
INSERT requires truthy content and `0 <= position <= len(content)` and
splices; DELETE requires truthy length and `0 <= position < len(content)`,
computes `end_pos = min(position + length, len(content))` and removes the
slice `[position:end_pos]`; FORMAT always succeeds without touching the
text; CURSOR (and any fall-through) fails. -/
def applyContentOp (c : List Char) (op : Operation) : Bool × List Char :=
  match op.op_type with
  | .insert =>
      if contentTruthy op.content ∧ 0 ≤ op.position ∧ op.position ≤ (c.length : Int) then
        (true, c.take op.position.toNat ++ op.content.getD [] ++ c.drop op.position.toNat)
      else
        (false, c)
  | .delete =>
      if lengthTruthy op.length ∧ 0 ≤ op.position ∧ op.position < (c.length : Int) then
        let endPos : Int := min (op.position + op.length.getD 0) (c.length : Int)
        (true, c.take op.position.toNat ++ pySuffix c endPos)
      else
        (false, c)
  | .format => (true, c)
  | .cursor => (false, c)

/-- `DocumentState.apply_operation`: on success the content is updated,
the version incremented and the operation appended to the log; on failure
the state is returned unchanged.  Returns the Python boolean result
together with the post-state. -/
def DocumentState.apply_operation (st : DocumentState) (op : Operation) :
    Bool × DocumentState :=
  match applyContentOp st.content op with
  | (true, c) =>
      (true, { st with content := c, version := st.version + 1,
                       operations := st.operations ++ [op] })
  | (false, _) => (false, st)

/-- `DocumentState.transform_operation`: transform `op1` against `op2`.
Each constructed `Operation(...)` call in the source passes only the
fields written there; the omitted dataclass fields default to `None`
(here `none`), exactly as in Python. -/
def DocumentState.transform_operation (op1 op2 : Operation) : Operation :=
  match op1.op_type, op2.op_type with
  | .insert, .insert =>
      if op1.position < op2.position then op1
      else if op1.position > op2.position then
        { op_type := op1.op_type, position := op1.position + lenOrEmpty op2.content,
          content := op1.content, length := none, agent_id := op1.agent_id }
      else if op1.agent_id < op2.agent_id then op1
      else
        { op_type := op1.op_type, position := op1.position + lenOrEmpty op2.content,
          content := op1.content, length := none, agent_id := op1.agent_id }
  | .delete, .insert =>
      if op1.position < op2.position then op1
      else
        { op_type := op1.op_type, position := op1.position + lenOrEmpty op2.content,
          content := none, length := op1.length, agent_id := op1.agent_id }
  | .insert, .delete =>
      if op1.position ≤ op2.position then op1
      else if op1.position > op2.position + op2.length.getD 0 then
        { op_type := op1.op_type, position := op1.position - op2.length.getD 0,
          content := op1.content, length := none, agent_id := op1.agent_id }
      else
        { op_type := op1.op_type, position := op2.position,
          content := op1.content, length := none, agent_id := op1.agent_id }
  | _, _ => op1

/-- `CollaborationManager.create_session` for a fresh document id: a new
`DocumentState` whose content is set to `initial_content` directly — no
operation is logged and the version stays 0. -/
def create_session (document_id : String) (initial_content : List Char) :
    DocumentState :=
  { DocumentState.init document_id with content := initial_content }

/-- Apply a list of operations in order, keeping the final state
(failed applies leave the state unchanged). -/
def apply_ops (st : DocumentState) (ops : List Operation) : DocumentState :=
  ops.foldl (fun s op => (s.apply_operation op).2) st

/-- Replay a log from the empty string: fold the content-level effect of
each logged operation (its kind, position, content and length) in order,
starting from `""`. -/
def replay (ops : List Operation) : List Char :=
  ops.foldl (fun c op => (applyContentOp c op).2) []

/-- Python `list.index(x)`: the first index whose element equals `x`
(dataclass equality is field equality).  Only ever called on members. -/
def list_index (a : Operation) : List Operation → Nat
  | [] => 0
  | b :: rest => if b = a then 0 else list_index a rest + 1

/-- `CollaborationManager.get_pending_operations` on a session's log: the
list comprehension keeping each `op` with `operations.index(op) >=
since_version`, in log order. -/
def get_pending_operations (ops : List Operation) (since_version : Nat) :
    List Operation :=
  ops.filter (fun op => since_version ≤ list_index op ops)

/-! ## Helper lemmas -/

theorem contentTruthy_of_ne {s : List Char} (h : s ≠ []) :
    contentTruthy (some s) = true := by
  cases s with
  | nil => exact absurd rfl h
  | cons a t => rfl

theorem applyContentOp_insert (c : List Char) (op : Operation)
    (hk : op.op_type = .insert) (hs : contentTruthy op.content = true)
    (h0 : 0 ≤ op.position) (hle : op.position ≤ (c.length : Int)) :
    applyContentOp c op =
      (true, c.take op.position.toNat ++ op.content.getD [] ++ c.drop op.position.toNat) := by
  unfold applyContentOp
  rw [hk]
  exact if_pos ⟨hs, h0, hle⟩

theorem applyContentOp_delete (c : List Char) (op : Operation)
    (hk : op.op_type = .delete) (hs : lengthTruthy op.length = true)
    (h0 : 0 ≤ op.position) (hlt : op.position < (c.length : Int)) :
    applyContentOp c op =
      (true, c.take op.position.toNat ++
        pySuffix c (min (op.position + op.length.getD 0) (c.length : Int))) := by
  unfold applyContentOp
  rw [hk]
  exact if_pos ⟨hs, h0, hlt⟩

theorem apply_operation_of_ok (st : DocumentState) (op : Operation) (c : List Char)
    (h : applyContentOp st.content op = (true, c)) :
    st.apply_operation op =
      (true, { st with content := c, version := st.version + 1,
                       operations := st.operations ++ [op] }) := by
  unfold DocumentState.apply_operation
  rw [h]

theorem apply_operation_of_fail (st : DocumentState) (op : Operation)
    (h : (applyContentOp st.content op).1 = false) :
    st.apply_operation op = (false, st) := by
  unfold DocumentState.apply_operation
  rcases h2 : applyContentOp st.content op with ⟨b, c⟩
  rw [h2] at h
  cases h
  rfl

theorem applyContentOp_insert_fail (c : List Char) (op : Operation)
    (hk : op.op_type = .insert)
    (hpre : ¬(contentTruthy op.content = true ∧ 0 ≤ op.position ∧
              op.position ≤ (c.length : Int))) :
    applyContentOp c op = (false, c) := by
  unfold applyContentOp
  rw [hk]
  exact if_neg hpre

theorem applyContentOp_delete_fail (c : List Char) (op : Operation)
    (hk : op.op_type = .delete)
    (hpre : ¬(lengthTruthy op.length = true ∧ 0 ≤ op.position ∧
              op.position < (c.length : Int))) :
    applyContentOp c op = (false, c) := by
  unfold applyContentOp
  rw [hk]
  exact if_neg hpre

theorem applyContentOp_cursor (c : List Char) (op : Operation)
    (hk : op.op_type = .cursor) :
    applyContentOp c op = (false, c) := by
  unfold applyContentOp
  rw [hk]

/-! ## Claim theorems -/

/-- C2 (counterexample): an Insert whose `content` is provided but is the
empty string, at the in-range position 1 of `"ab"`, is rejected: `apply`
returns false and leaves the state unchanged, where the claim as stated
says it returns true and splices. -/
theorem apply_insert_empty_content_cex :
    (create_session "c2" ['a', 'b']).apply_operation
        { op_type := .insert, position := 1, content := some [], agent_id := ['u'] }
      = (false, create_session "c2" ['a', 'b']) := by decide

/-- C2 (amended): for every `DocumentState` with content `c` and every
Insert operation whose content is provided and non-empty and whose
position `p` satisfies `0 <= p <= len(c)`, `apply_operation` returns true,
the new content is `c[:p] + op.content + c[p:]`, the version increases by
exactly 1, and the operation is appended to the log. -/
theorem apply_insert_valid (st : DocumentState) (op : Operation) (s : List Char)
    (hk : op.op_type = .insert) (hc : op.content = some s) (hne : s ≠ [])
    (h0 : 0 ≤ op.position) (hle : op.position ≤ (st.content.length : Int)) :
    st.apply_operation op =
      (true, { st with
        content := st.content.take op.position.toNat ++ s ++
                   st.content.drop op.position.toNat,
        version := st.version + 1,
        operations := st.operations ++ [op] }) := by
  have h := applyContentOp_insert st.content op hk
    (by rw [hc]; exact contentTruthy_of_ne hne) h0 hle
  rw [hc] at h
  exact apply_operation_of_ok st op _ h

/-- Witness for `apply_insert_valid`: inserting `"Z"` at position 1 of
`"ab"` yields `"aZb"`, version 1 and a one-entry log. -/
theorem apply_insert_valid_witness :
    (create_session "w2" ['a', 'b']).apply_operation
        { op_type := .insert, position := 1, content := some ['Z'], agent_id := ['w'] }
      = (true, { document_id := "w2", content := ['a', 'Z', 'b'], version := 1,
                 operations := [{ op_type := .insert, position := 1,
                                  content := some ['Z'], agent_id := ['w'] }] }) := by
  have h := apply_insert_valid (create_session "w2" ['a', 'b'])
    { op_type := .insert, position := 1, content := some ['Z'], agent_id := ['w'] }
    ['Z'] rfl rfl (by decide) (by decide) (by decide)
  exact h.trans (by decide)

/-- C3 (counterexample): a Delete whose `length` is provided as 0, at the
in-range position 0 of `"ab"`, is rejected (`apply` returns false) where
the claim as stated says it returns true; and a Delete whose `length` is
provided as -1, at the in-range position 2 of `"abcde"`, returns true but
*grows* the content to `"abbcde"` instead of removing
`min(length, len(c) - p)` characters. -/
theorem apply_delete_bad_length_cex :
    ((create_session "c3" ['a', 'b']).apply_operation
        { op_type := .delete, position := 0, length := some 0 }).1 = false
  ∧ ((create_session "c3" ['a', 'b', 'c', 'd', 'e']).apply_operation
        { op_type := .delete, position := 2, length := some (-1) }).1 = true
  ∧ ((create_session "c3" ['a', 'b', 'c', 'd', 'e']).apply_operation
        { op_type := .delete, position := 2, length := some (-1) }).2.content
      = ['a', 'b', 'b', 'c', 'd', 'e'] := by decide

/-- C3 (amended): for every `DocumentState` with content `c` and every
Delete operation whose length is provided and positive and whose position
`p` satisfies `0 <= p < len(c)`, `apply_operation` returns true, removes
exactly `min(length, len(c) - p)` characters starting at `p` (clamping
instead of raising when `p + length` exceeds `len(c)`), increments the
version by exactly 1, and appends the operation to the log. -/
theorem apply_delete_valid (st : DocumentState) (op : Operation) (l : Int)
    (hk : op.op_type = .delete) (hl : op.length = some l) (hpos : 0 < l)
    (h0 : 0 ≤ op.position) (hlt : op.position < (st.content.length : Int)) :
    st.apply_operation op =
      (true, { st with
        content := st.content.take op.position.toNat ++
          st.content.drop
            (op.position.toNat + min l.toNat (st.content.length - op.position.toNat)),
        version := st.version + 1,
        operations := st.operations ++ [op] }) ∧
    ((st.apply_operation op).2).content.length
      = st.content.length - min l.toNat (st.content.length - op.position.toNat) := by
  have hs : lengthTruthy op.length = true := by
    rw [hl]
    simp only [lengthTruthy, bne_iff_ne, ne_eq, decide_eq_true_eq]
    omega
  have h := applyContentOp_delete st.content op hk hs h0 hlt
  have hend : min (op.position + op.length.getD 0) ((st.content.length : Int))
      = ((op.position.toNat + min l.toNat (st.content.length - op.position.toNat) : Nat) : Int) := by
    rw [hl]
    simp only [Option.getD_some]
    omega
  have hpy : pySuffix st.content
        (min (op.position + op.length.getD 0) ((st.content.length : Int)))
      = st.content.drop
          (op.position.toNat + min l.toNat (st.content.length - op.position.toNat)) := by
    rw [hend]
    unfold pySuffix
    rw [if_pos (Int.ofNat_nonneg _)]
    rw [Int.toNat_natCast]
  rw [hpy] at h
  have happly := apply_operation_of_ok st op _ h
  refine ⟨happly, ?_⟩
  rw [happly]
  simp only [List.length_append, List.length_take, List.length_drop]
  omega

/-- Witness for `apply_delete_valid`: deleting 10 characters at position 3
of `"abcde"` clamps, removes the last two characters and yields `"abc"`. -/
theorem apply_delete_valid_witness :
    (create_session "w3" ['a', 'b', 'c', 'd', 'e']).apply_operation
        { op_type := .delete, position := 3, length := some 10 }
      = (true, { document_id := "w3", content := ['a', 'b', 'c'], version := 1,
                 operations := [{ op_type := .delete, position := 3, length := some 10 }] }) := by
  have h := apply_delete_valid (create_session "w3" ['a', 'b', 'c', 'd', 'e'])
    { op_type := .delete, position := 3, length := some 10 }
    10 rfl rfl (by decide) (by decide) (by decide)
  exact h.1.trans (by decide)

/-- C4: applying an operation of kind CURSOR, or an INSERT or DELETE
operation failing its precondition (the INSERT guard being truthy content
and `0 <= position <= len(content)`, the DELETE guard truthy length and
`0 <= position < len(content)`), returns false and leaves content, version
and the operations log all unchanged. -/
theorem apply_rejected_noop (st : DocumentState) (op : Operation)
    (h : op.op_type = .cursor
      ∨ (op.op_type = .insert ∧
          ¬(contentTruthy op.content = true ∧ 0 ≤ op.position ∧
            op.position ≤ (st.content.length : Int)))
      ∨ (op.op_type = .delete ∧
          ¬(lengthTruthy op.length = true ∧ 0 ≤ op.position ∧
            op.position < (st.content.length : Int)))) :
    st.apply_operation op = (false, st) := by
  apply apply_operation_of_fail
  rcases h with hk | ⟨hk, hpre⟩ | ⟨hk, hpre⟩
  · rw [applyContentOp_cursor st.content op hk]
  · rw [applyContentOp_insert_fail st.content op hk hpre]
  · rw [applyContentOp_delete_fail st.content op hk hpre]

/-- Witness for `apply_rejected_noop`: a CURSOR operation, an out-of-range
INSERT (position 3 in `"ab"`) and a negative-position DELETE all return
false and leave the state unchanged. -/
theorem apply_rejected_noop_witness :
    (create_session "w4" ['a', 'b']).apply_operation
        { op_type := .cursor, position := 0 } = (false, create_session "w4" ['a', 'b'])
  ∧ (create_session "w4" ['a', 'b']).apply_operation
        { op_type := .insert, position := 3, content := some ['x'] }
      = (false, create_session "w4" ['a', 'b'])
  ∧ (create_session "w4" ['a', 'b']).apply_operation
        { op_type := .delete, position := -1, length := some 1 }
      = (false, create_session "w4" ['a', 'b']) :=
  ⟨apply_rejected_noop _ _ (Or.inl rfl),
   apply_rejected_noop _ _ (Or.inr (Or.inl ⟨rfl, by decide⟩)),
   apply_rejected_noop _ _ (Or.inr (Or.inr ⟨rfl, by decide⟩))⟩

/-- C10: applying an Insert operation whose content is the (provided)
empty string, or a Delete operation whose length is (provided and) 0,
returns false and leaves content, version and the operations log
unchanged, for every state and hence for every position. -/
theorem apply_empty_payload_noop (st : DocumentState) (op : Operation) :
    (op.op_type = .insert → op.content = some [] →
      st.apply_operation op = (false, st))
  ∧ (op.op_type = .delete → op.length = some 0 →
      st.apply_operation op = (false, st)) := by
  constructor
  · intro hk hc
    apply apply_operation_of_fail
    rw [applyContentOp_insert_fail st.content op hk
      (by rw [hc]; simp [contentTruthy])]
  · intro hk hl
    apply apply_operation_of_fail
    rw [applyContentOp_delete_fail st.content op hk
      (by rw [hl]; simp [lengthTruthy])]

/-- Witness for `apply_empty_payload_noop`: an empty-content INSERT and a
zero-length DELETE at the valid position 1 of `"ab"` are both rejected
without any state change. -/
theorem apply_empty_payload_noop_witness :
    (create_session "wt" ['a', 'b']).apply_operation
        { op_type := .insert, position := 1, content := some [] }
      = (false, create_session "wt" ['a', 'b'])
  ∧ (create_session "wt" ['a', 'b']).apply_operation
        { op_type := .delete, position := 1, length := some 0 }
      = (false, create_session "wt" ['a', 'b']) :=
  ⟨(apply_empty_payload_noop _ _).1 rfl rfl,
   (apply_empty_payload_noop _ _).2 rfl rfl⟩

/-- C6: for Insert operations `A` and `B` with equal positions, when
`A.agent_id < B.agent_id` lexicographically, `transform(A, B)` returns `A`
unchanged and `transform(B, A)` shifts `B`'s position right by
`len(A.content)`; the symmetric case is this theorem with `A` and `B`
interchanged, so exactly one of the two concurrent inserts is shifted,
deterministically, whichever order the two calls are made. -/
theorem transform_insert_tiebreak (A B : Operation)
    (hA : A.op_type = .insert) (hB : B.op_type = .insert)
    (hpos : A.position = B.position) (hlt : A.agent_id < B.agent_id) :
    DocumentState.transform_operation A B = A ∧
    (DocumentState.transform_operation B A).position
      = B.position + lenOrEmpty A.content := by
  constructor
  · simp only [DocumentState.transform_operation, hA, hB]
    rw [if_neg (by rw [hpos]; exact lt_irrefl _),
        if_neg (by rw [hpos]; exact lt_irrefl _),
        if_pos hlt]
  · simp only [DocumentState.transform_operation, hA, hB]
    rw [if_neg (by rw [hpos]; exact lt_irrefl _),
        if_neg (by rw [hpos]; exact lt_irrefl _),
        if_neg (asymm hlt)]

/-- Witness for `transform_insert_tiebreak`: two inserts at position 5
from agents `"a" < "b"`; the `"a"` insert is unaffected and the `"b"`
insert is shifted right by 2, the length of `"xy"`. -/
theorem transform_insert_tiebreak_witness :
    DocumentState.transform_operation
        { op_type := .insert, position := 5, content := some ['x', 'y'], agent_id := ['a'] }
        { op_type := .insert, position := 5, content := some ['q'], agent_id := ['b'] }
      = { op_type := .insert, position := 5, content := some ['x', 'y'], agent_id := ['a'] }
  ∧ (DocumentState.transform_operation
        { op_type := .insert, position := 5, content := some ['q'], agent_id := ['b'] }
        { op_type := .insert, position := 5, content := some ['x', 'y'], agent_id := ['a'] }).position
      = 7 := by
  have h := transform_insert_tiebreak
    { op_type := .insert, position := 5, content := some ['x', 'y'], agent_id := ['a'] }
    { op_type := .insert, position := 5, content := some ['q'], agent_id := ['b'] }
    rfl rfl rfl (by decide)
  exact ⟨h.1, h.2.trans (by decide)⟩

/-- C7: transforming an Insert `A` against a Delete `B` (whose length is
provided and, per the data model, a non-negative span) leaves `A`
unchanged when `A.position <= B.position`, shifts `A`'s position left by
`B.length` when `A.position > B.position + B.length`, and clamps
`A.position` down to exactly `B.position` when `A.position` falls inside
the deleted span; kind, content and agent id are preserved in all three
cases. -/
theorem transform_insert_vs_delete (A B : Operation) (l : Int)
    (hA : A.op_type = .insert) (hB : B.op_type = .delete)
    (hl : B.length = some l) (hl0 : 0 ≤ l) :
    (A.position ≤ B.position → DocumentState.transform_operation A B = A)
  ∧ (A.position > B.position + l →
      (DocumentState.transform_operation A B).op_type = A.op_type
      ∧ (DocumentState.transform_operation A B).content = A.content
      ∧ (DocumentState.transform_operation A B).position = A.position - l
      ∧ (DocumentState.transform_operation A B).agent_id = A.agent_id)
  ∧ (B.position < A.position → A.position ≤ B.position + l →
      (DocumentState.transform_operation A B).op_type = A.op_type
      ∧ (DocumentState.transform_operation A B).content = A.content
      ∧ (DocumentState.transform_operation A B).position = B.position
      ∧ (DocumentState.transform_operation A B).agent_id = A.agent_id) := by
  refine ⟨fun h1 => ?_, fun h2 => ?_, fun h3 h4 => ?_⟩
  · simp only [DocumentState.transform_operation, hA, hB]
    rw [if_pos h1]
  · simp only [DocumentState.transform_operation, hA, hB, hl, Option.getD_some]
    rw [if_neg (by omega), if_pos h2]
    exact ⟨rfl, rfl, rfl, rfl⟩
  · simp only [DocumentState.transform_operation, hA, hB, hl, Option.getD_some]
    rw [if_neg (by omega), if_neg (by omega)]
    exact ⟨rfl, rfl, rfl, rfl⟩

/-- Witness for `transform_insert_vs_delete`: against a Delete of length 5
at position 4, an Insert at position 2 is unchanged, an Insert at position
12 moves to 7, and an Insert at position 6 (inside the deleted span) is
clamped to 4. -/
theorem transform_insert_vs_delete_witness :
    DocumentState.transform_operation
        { op_type := .insert, position := 2, content := some ['q'], agent_id := ['a'] }
        { op_type := .delete, position := 4, length := some 5, agent_id := ['b'] }
      = { op_type := .insert, position := 2, content := some ['q'], agent_id := ['a'] }
  ∧ (DocumentState.transform_operation
        { op_type := .insert, position := 12, content := some ['q'], agent_id := ['a'] }
        { op_type := .delete, position := 4, length := some 5, agent_id := ['b'] }).position = 7
  ∧ (DocumentState.transform_operation
        { op_type := .insert, position := 6, content := some ['q'], agent_id := ['a'] }
        { op_type := .delete, position := 4, length := some 5, agent_id := ['b'] }).position = 4 :=
  ⟨(transform_insert_vs_delete
      { op_type := .insert, position := 2, content := some ['q'], agent_id := ['a'] }
      { op_type := .delete, position := 4, length := some 5, agent_id := ['b'] }
      5 rfl rfl rfl (by decide)).1 (by decide),
   ((transform_insert_vs_delete
      { op_type := .insert, position := 12, content := some ['q'], agent_id := ['a'] }
      { op_type := .delete, position := 4, length := some 5, agent_id := ['b'] }
      5 rfl rfl rfl (by decide)).2.1 (by decide)).2.2.1,
   ((transform_insert_vs_delete
      { op_type := .insert, position := 6, content := some ['q'], agent_id := ['a'] }
      { op_type := .delete, position := 4, length := some 5, agent_id := ['b'] }
      5 rfl rfl rfl (by decide)).2.2 (by decide) (by decide)).2.2.1⟩

/-- C9 (counterexample): `transform` does not always return a new
Operation value distinct from its inputs: transforming an Insert at
position 1 against an Insert at position 5 returns the first input itself,
unchanged. -/
theorem transform_returns_input_cex :
    DocumentState.transform_operation
        { op_type := .insert, position := 1, content := some ['x'], agent_id := ['a'] }
        { op_type := .insert, position := 5, content := some ['y'], agent_id := ['b'] }
      = { op_type := .insert, position := 1, content := some ['x'], agent_id := ['a'] } := by
  decide

/-- C9 (amended): `transform` never modifies its inputs — in this pure
embedding it is a function of its arguments and the source mutates no
field of either operation — and it always preserves the first operand's
kind and agent id; but its result is not always a value distinct from the
inputs: in the unaffected and fall-through branches it returns `op1`
itself. -/
theorem transform_preserves_kind_and_agent (A B : Operation) :
    (DocumentState.transform_operation A B).op_type = A.op_type
    ∧ (DocumentState.transform_operation A B).agent_id = A.agent_id := by
  unfold DocumentState.transform_operation
  split <;> (try split_ifs) <;> exact ⟨rfl, rfl⟩

theorem replay_append (l : List Operation) (op : Operation) :
    replay (l ++ [op]) = (applyContentOp (replay l) op).2 := by
  simp [replay, List.foldl_append]

theorem replay_invariant (l : List Operation) : ∀ st : DocumentState,
    replay st.operations = st.content →
    replay (apply_ops st l).operations = (apply_ops st l).content := by
  induction l with
  | nil => exact fun st h => h
  | cons op rest ih =>
    intro st h
    have hstep : replay ((st.apply_operation op).2).operations
        = ((st.apply_operation op).2).content := by
      unfold DocumentState.apply_operation
      rcases h2 : applyContentOp st.content op with ⟨b, c⟩
      cases b
      · exact h
      · dsimp only
        rw [replay_append, h, h2]
    exact ih ((st.apply_operation op).2) hstep

/-- C1 (counterexample): `create_session` with the non-empty initial
content `"H"` produces a live content `"H"` with an empty operations log,
so replaying the log from the empty string yields `""`, not the live
content — the claim fails for states seeded through `createSession` with a
non-empty `initialContent`. -/
theorem replay_misses_seed_cex :
    replay (create_session "doc" ['H']).operations
      ≠ (create_session "doc" ['H']).content := by decide

/-- C1 (amended): for every state reachable through `createSession` with
*empty* initial content followed by any sequence of applies (each
successful apply appends its operation, each failed apply changes
nothing), replaying the operations log from the empty string — applying
each logged operation's kind, position, content and length in log order —
reproduces the live content exactly.  Seeded sessions are excluded: the
initial content is never logged. -/
theorem replay_reproduces_content (document_id : String) (ops : List Operation) :
    replay (apply_ops (create_session document_id []) ops).operations
      = (apply_ops (create_session document_id []) ops).content :=
  replay_invariant ops (create_session document_id []) rfl

theorem apply_operation_version_cases (st : DocumentState) (op : Operation) :
    ((st.apply_operation op).1 = true
      ∧ (st.apply_operation op).2.version = st.version + 1
      ∧ (st.apply_operation op).2.operations = st.operations ++ [op])
  ∨ ((st.apply_operation op).1 = false ∧ (st.apply_operation op).2 = st) := by
  unfold DocumentState.apply_operation
  rcases h2 : applyContentOp st.content op with ⟨b, c⟩
  cases b
  · exact Or.inr ⟨rfl, rfl⟩
  · exact Or.inl ⟨rfl, rfl, rfl⟩

/-- C5: `version == len(operations)` holds in every state reachable
through `createSession` (with any initial content) followed by any
sequence of applies; moreover each apply either returns true, increments
the version by exactly 1 and appends exactly its operation to the log, or
returns false and leaves the state untouched. -/
theorem version_eq_log_length :
    (∀ (document_id : String) (init : List Char) (ops : List Operation),
        (apply_ops (create_session document_id init) ops).version
          = (apply_ops (create_session document_id init) ops).operations.length)
  ∧ ∀ (st : DocumentState) (op : Operation),
      ((st.apply_operation op).1 = true
        ∧ (st.apply_operation op).2.version = st.version + 1
        ∧ (st.apply_operation op).2.operations = st.operations ++ [op])
      ∨ ((st.apply_operation op).1 = false ∧ (st.apply_operation op).2 = st) := by
  have inv : ∀ (l : List Operation) (st : DocumentState),
      st.version = st.operations.length →
      (apply_ops st l).version = (apply_ops st l).operations.length := by
    intro l
    induction l with
    | nil => exact fun st h => h
    | cons op rest ih =>
      intro st h
      refine ih ((st.apply_operation op).2) ?_
      rcases apply_operation_version_cases st op with ⟨_, hv, hops⟩ | ⟨_, hst⟩
      · rw [hv, hops, h, List.length_append, List.length_singleton]
      · rw [hst]
        exact h
  exact ⟨fun document_id init ops => inv ops (create_session document_id init) rfl,
         apply_operation_version_cases⟩

/-- C8 (counterexample): the linear-search reference behavior is not
always the log suffix.  Applying the *same* insert operation twice from an
empty session yields the reachable log `[op, op]`; with `sinceVersion = 1`
the reference (`operations.index(op) >= 1`) keeps nothing, because both
occurrences have first index 0, whereas the suffix `operations[1:]` is
`[op]`. -/
theorem get_pending_duplicate_cex :
    get_pending_operations
        (apply_ops (create_session "c8" [])
          [{ op_type := .insert, position := 0, content := some ['a'], agent_id := ['x'] },
           { op_type := .insert, position := 0, content := some ['a'], agent_id := ['x'] }]).operations
        1
      = []
  ∧ (apply_ops (create_session "c8" [])
        [{ op_type := .insert, position := 0, content := some ['a'], agent_id := ['x'] },
         { op_type := .insert, position := 0, content := some ['a'], agent_id := ['x'] }]).operations.drop
        1
      = [{ op_type := .insert, position := 0, content := some ['a'], agent_id := ['x'] }] := by
  decide

/-- C8 (amended): for every operations log with no duplicate entries (no
two logged operations equal field-for-field) and every `sinceVersion`, the
reference `getPendingOperations` behavior — keeping each logged operation
whose position found by linear search (`operations.index(op)`) is `>=
sinceVersion` — returns exactly the log suffix `operations[sinceVersion:]`.
With duplicates (the same operation applied twice is reachable) the two
disagree, as the counterexample shows. -/
theorem get_pending_eq_drop : ∀ (ops : List Operation), ops.Nodup →
    ∀ since_version : Nat,
      get_pending_operations ops since_version = ops.drop since_version := by
  intro ops
  induction ops with
  | nil => intro _ s; simp [get_pending_operations]
  | cons a rest ih =>
    intro h s
    rw [List.nodup_cons] at h
    cases s with
    | zero =>
      unfold get_pending_operations
      rw [List.drop_zero]
      exact List.filter_eq_self.mpr fun op _ => by simp
    | succ s =>
      unfold get_pending_operations
      rw [List.filter_cons, if_neg (by simp [list_index]), List.drop_succ_cons]
      have hcongr : ∀ op ∈ rest,
          (decide (s + 1 ≤ list_index op (a :: rest)) : Bool)
            = decide (s ≤ list_index op rest) := by
        intro op hop
        have hne : a ≠ op := fun he => h.1 (he ▸ hop)
        simp only [list_index, if_neg hne]
        rw [decide_eq_decide]
        omega
      rw [List.filter_congr hcongr]
      exact ih h.2 s

/-- Witness for `get_pending_eq_drop`: on a duplicate-free two-entry log
with `sinceVersion = 1`, the reference behavior returns exactly the
one-element suffix. -/
theorem get_pending_eq_drop_witness :
    get_pending_operations
        [{ op_type := .insert, position := 0, content := some ['a'], agent_id := ['x'] },
         { op_type := .insert, position := 1, content := some ['b'], agent_id := ['y'] }]
        1
      = [{ op_type := .insert, position := 1, content := some ['b'], agent_id := ['y'] }] := by
  have h := get_pending_eq_drop
    [{ op_type := .insert, position := 0, content := some ['a'], agent_id := ['x'] },
     { op_type := .insert, position := 1, content := some ['b'], agent_id := ['y'] }]
    (by decide) 1
  exact h.trans (by decide)
